import Mathlib

/-!
Shallow embedding of the `SuSisoChannel` facade from
`pyphysim/channels/singleuser.py` and of `randn_c` from `util/misc.py`,
together with proofs of the specification claims about them.

Python floats appearing as configuration values are modelled as rationals
(`ℚ`), complex baseband samples as `ℂ`, one-dimensional numpy arrays as
lists, and `math.sqrt` as `Real.sqrt`.  A method that can raise is
modelled as a function returning the new object state paired with an
optional error message (`none` = no exception raised); when it raises, the
returned state is the receiver unchanged, mirroring that the Python
exception fires before any attribute assignment.
-/

namespace PyPhysim

/-- Modelled from the spec: the `fading_generators` module
(`pyphysim/channels/fading_generators.py`) is not among the sources.  The
spec lists a Rayleigh variant and correlated Doppler-shaped variants; for
the facade claims only the identity of the generator matters, so
generators are represented by a tag.  `rayleigh` stands for a
default-constructed `RayleighSampleGenerator()`. -/
inductive FadingSampleGenerator where
  | rayleigh : FadingSampleGenerator
  | jakes (dopplerParam : ℚ) : FadingSampleGenerator
  | custom (id : ℕ) : FadingSampleGenerator
deriving DecidableEq, Repr

/-- Modelled from the spec: `TdlChannelProfile` pairs ordered tap powers
in dB with tap delays, index to index. -/
structure TdlChannelProfile where
  tap_powers_dB : List ℚ
  tap_delays : List ℚ
deriving DecidableEq, Repr

/-- Modelled from the spec: `TdlImpulseResponse` carries the tap gain
values of one impulse-response realization; only the gains matter to the
facade claims. -/
structure TdlImpulseResponse where
  tap_values : List ℂ

/-- Modelled from the spec: scalar multiplication on `TdlImpulseResponse`
(the facade computes `math.sqrt(pathloss) * response`) scales every tap
gain by the scalar. -/
def TdlImpulseResponse.smul (c : ℝ) (h : TdlImpulseResponse) : TdlImpulseResponse :=
  ⟨h.tap_values.map (fun z => (c : ℂ) * z)⟩

/-- Configuration with which the inner `TdlChannel` is constructed: the
fading generator, the tap powers and delays of its profile, and the
sampling interval `Ts` (`none` when the Python passes `Ts=None`). -/
structure TdlChannel where
  fading_generator : FadingSampleGenerator
  tap_powers_dB : List ℚ
  tap_delays : List ℚ
  Ts : Option ℚ
deriving DecidableEq, Repr

/-- Modelled from the spec: the `TdlChannel` constructor lives in
`pyphysim/channels/fading.py`, which is not among the sources.  Per the
spec a profile requires `len(tap_powers_dB) == len(tap_delays)`;
mismatched lengths, powers or delays given without their counterpart, and
a profile object given together with explicit powers or delays all fail
construction with an error instead of being silently truncated. -/
def TdlChannel.construct (fading_generator : FadingSampleGenerator)
    (channel_profile : Option TdlChannelProfile)
    (tap_powers_dB tap_delays : Option (List ℚ)) (Ts : Option ℚ) :
    Except String TdlChannel :=
  match channel_profile, tap_powers_dB, tap_delays with
  | some p, none, none =>
      if p.tap_powers_dB.length = p.tap_delays.length then
        .ok ⟨fading_generator, p.tap_powers_dB, p.tap_delays, Ts⟩
      else .error "tap_powers_dB and tap_delays must have the same length"
  | none, some ps, some ds =>
      if ps.length = ds.length then .ok ⟨fading_generator, ps, ds, Ts⟩
      else .error "tap_powers_dB and tap_delays must have the same length"
  | _, _, _ =>
      .error "specify either channel_profile or both tap_powers_dB and tap_delays"

/-- State of a `SuSisoChannel`: the owned inner `TdlChannel` plus the
optional linear-scale path loss — exactly the two attributes that
`SuSisoChannel.__init__` sets. -/
structure SuSisoChannel where
  tdlchannel : TdlChannel
  pathloss_value : Option ℚ
deriving DecidableEq, Repr

/-- Embedding of `SuSisoChannel.__init__` (singleuser.py lines 39-65): a
missing fading generator defaults to `RayleighSampleGenerator()` and, if
additionally neither `channel_profile` nor `Ts` was given, `Ts` defaults
to 1; if none of profile, tap powers and tap delays were given, the inner
channel is built flat-fading (`tap_powers_dB=np.zeros(1)`,
`tap_delays=np.zeros(1)`), otherwise the given parameters are passed on;
`_pathloss_value` starts as `None`. -/
def SuSisoChannel.init (fading_generator : Option FadingSampleGenerator)
    (channel_profile : Option TdlChannelProfile)
    (tap_powers_dB tap_delays : Option (List ℚ)) (Ts : Option ℚ) :
    Except String SuSisoChannel :=
  let fg : FadingSampleGenerator :=
    match fading_generator with
    | none => FadingSampleGenerator.rayleigh
    | some g => g
  let Ts1 : Option ℚ :=
    match fading_generator, channel_profile, Ts with
    | none, none, none => some 1
    | _, _, _ => Ts
  match channel_profile, tap_powers_dB, tap_delays with
  | none, none, none =>
      (TdlChannel.construct fg none (some [0]) (some [0]) Ts1).map
        (fun tdl => ⟨tdl, none⟩)
  | cp, ps, ds =>
      (TdlChannel.construct fg cp ps ds Ts1).map (fun tdl => ⟨tdl, none⟩)

/-- Embedding of `SuSisoChannel.set_pathloss` (singleuser.py lines
67-95): raises `ValueError("Pathloss must be between 0 and 1")` when the
value is not `None` and lies outside `[0, 1]`; the raise happens before
the assignment, so the stored value is unchanged in that case. -/
def SuSisoChannel.set_pathloss (ch : SuSisoChannel) (pathloss_value : Option ℚ) :
    SuSisoChannel × Option String :=
  match pathloss_value with
  | some v =>
      if v < 0 ∨ v > 1 then (ch, some "Pathloss must be between 0 and 1")
      else ({ ch with pathloss_value := some v }, none)
  | none => ({ ch with pathloss_value := none }, none)

/-- Call of `set_pathloss` with no argument: the Python parameter
defaults to `None`. -/
def SuSisoChannel.set_pathloss_noarg (ch : SuSisoChannel) : SuSisoChannel × Option String :=
  ch.set_pathloss none

/-- Embedding of `SuSisoChannel.corrupt_data` (singleuser.py lines
97-117).  The inner call `self._tdlchannel.corrupt_data(signal)` lives in
`pyphysim/channels/fading.py`, which is not among the sources; it is
abstracted as the function `inner` from the input signal to the inner
channel's output for one fixed fading realization.  The facade then
multiplies the whole output elementwise by `math.sqrt(pathloss_value)`
when a path loss is set. -/
noncomputable def SuSisoChannel.corrupt_data (inner : List ℂ → List ℂ)
    (ch : SuSisoChannel) (signal : List ℂ) : List ℂ :=
  let output := inner signal
  match ch.pathloss_value with
  | none => output
  | some v => output.map (fun z => z * ((Real.sqrt (v : ℝ) : ℝ) : ℂ))

/-- Embedding of `SuSisoChannel.corrupt_data_in_freq_domain`
(singleuser.py lines 119-154), with the inner
`self._tdlchannel.corrupt_data_in_freq_domain` abstracted as `innerF`
exactly as in `SuSisoChannel.corrupt_data`. -/
noncomputable def SuSisoChannel.corrupt_data_in_freq_domain
    (innerF : List ℂ → ℕ → Option (List ℕ) → List ℂ)
    (ch : SuSisoChannel) (signal : List ℂ) (fft_size : ℕ)
    (carrier_indexes : Option (List ℕ)) : List ℂ :=
  let output := innerF signal fft_size carrier_indexes
  match ch.pathloss_value with
  | none => output
  | some v => output.map (fun z => z * ((Real.sqrt (v : ℝ) : ℝ) : ℂ))

/-- Embedding of `SuSisoChannel.get_last_impulse_response` (singleuser.py
lines 156-174), with the inner channel's last impulse response abstracted
as `innerLast` (`none` before any corruption call). -/
noncomputable def SuSisoChannel.get_last_impulse_response
    (innerLast : Option TdlImpulseResponse) (ch : SuSisoChannel) :
    Option TdlImpulseResponse :=
  match ch.pathloss_value with
  | none => innerLast
  | some v => innerLast.map (TdlImpulseResponse.smul (Real.sqrt (v : ℝ)))

/-- Linear power of a tap power given in dB: `power = 10^(dB/10)`. -/
noncomputable def dB_to_linear (p : ℚ) : ℝ := (10 : ℝ) ^ ((p : ℝ) / 10)

/-- Invariant on the facade's path-loss attribute: disabled, or a scalar
in the closed unit interval. -/
def PathlossInv (ch : SuSisoChannel) : Prop :=
  ch.pathloss_value = none ∨ ∃ x, ch.pathloss_value = some x ∧ 0 ≤ x ∧ x ≤ 1

/-- Default flat-fading channel, the result of `SuSisoChannel()`. -/
def defaultSu : SuSisoChannel :=
  ⟨⟨FadingSampleGenerator.rayleigh, [0], [0], some 1⟩, none⟩

/-! Theorems about the facade claims. -/

/-- C2: `set_pathloss(v)` raises exactly when `v` is not `None` and lies
outside `[0, 1]` (so `None`, `0` and `1` are all accepted); when it
raises, the stored pathloss value is unchanged, and when it succeeds, the
given value is stored. -/
theorem set_pathloss_raises_iff (ch : SuSisoChannel) (v : Option ℚ) :
    ((ch.set_pathloss v).2 ≠ none ↔ ∃ x, v = some x ∧ (x < 0 ∨ 1 < x)) ∧
    ((ch.set_pathloss v).2 ≠ none → (ch.set_pathloss v).1 = ch) ∧
    ((ch.set_pathloss v).2 = none → (ch.set_pathloss v).1.pathloss_value = v) := by
  cases v with
  | none => simp [SuSisoChannel.set_pathloss]
  | some x =>
    by_cases hx : x < 0 ∨ 1 < x <;>
      simp [SuSisoChannel.set_pathloss, hx]

/-- Witness for C2 at the concrete out-of-range value 2: the call raises
and the channel state is unchanged. -/
theorem set_pathloss_raises_iff_witness :
    ((defaultSu.set_pathloss (some 2)).2 ≠ none) ∧
    (defaultSu.set_pathloss (some 2)).1 = defaultSu := by
  have h := set_pathloss_raises_iff defaultSu (some 2)
  have herr : (defaultSu.set_pathloss (some 2)).2 ≠ none :=
    h.1.mpr ⟨2, rfl, Or.inr (by norm_num)⟩
  exact ⟨herr, h.2.1 herr⟩

/-- C3: `SuSisoChannel()` with no arguments builds a flat-fading channel:
a Rayleigh generator, one tap with zero delay and power 0 dB (which is
unit linear power), and `Ts = 1` passed to the inner `TdlChannel`. -/
theorem default_su_siso_is_flat_rayleigh :
    SuSisoChannel.init none none none none none =
      Except.ok ⟨⟨FadingSampleGenerator.rayleigh, [0], [0], some 1⟩, none⟩ ∧
    dB_to_linear 0 = 1 := by
  refine ⟨rfl, ?_⟩
  simp [dB_to_linear]

/-- C7: a fading generator given alone (no profile, no tap powers, no tap
delays) yields the same single-tap flat-fading profile as the default
(one tap, power 0 dB, delay 0), with the given generator. -/
theorem generator_only_su_siso_is_flat (g : FadingSampleGenerator) :
    SuSisoChannel.init (some g) none none none none =
      Except.ok ⟨⟨g, [0], [0], none⟩, none⟩ := rfl

/-- C9: the `Ts = 1` default applies only when the fading generator is
also omitted — with a generator given and everything else omitted the
inner `TdlChannel` receives `Ts = None`, while the no-argument
construction passes `Ts = 1`. -/
theorem su_siso_Ts_default_needs_no_generator :
    (∀ g : FadingSampleGenerator,
        (SuSisoChannel.init (some g) none none none none).toOption.map
          (fun ch => ch.tdlchannel.Ts) = some none) ∧
    (SuSisoChannel.init none none none none none).toOption.map
      (fun ch => ch.tdlchannel.Ts) = some (some 1) :=
  ⟨fun _ => rfl, rfl⟩

/-- C6: supplying tap powers and tap delays of different lengths (or tap
powers with no delays at all) makes construction fail with an error; no
channel is ever returned, so nothing is silently truncated. -/
theorem mismatched_taps_fail_construction (fg : Option FadingSampleGenerator)
    (ps ds : List ℚ) (Ts : Option ℚ) :
    (ps.length ≠ ds.length →
      ∃ e, SuSisoChannel.init fg none (some ps) (some ds) Ts = Except.error e) ∧
    (∃ e, SuSisoChannel.init fg none (some ps) none Ts = Except.error e) := by
  constructor
  · intro h
    cases fg <;> cases Ts <;>
      simp [SuSisoChannel.init, TdlChannel.construct, h] <;>
      exact ⟨_, rfl⟩
  · cases fg <;> cases Ts <;>
      simp [SuSisoChannel.init, TdlChannel.construct] <;>
      exact ⟨_, rfl⟩

/-- Witness for C6: two tap powers with a single tap delay fail
construction. -/
theorem mismatched_taps_fail_construction_witness :
    ([0, -3] : List ℚ).length ≠ ([0] : List ℚ).length ∧
    ∃ e, SuSisoChannel.init none none (some [0, -3]) (some [0]) none =
      Except.error e :=
  ⟨by decide,
    (mismatched_taps_fail_construction none [0, -3] [0] none).1 (by decide)⟩

/-- C5 counterexample: `set_pathloss(0)` succeeds and stores the value 0,
so a stored pathloss of exactly 0 is reachable. -/
theorem set_pathloss_zero_succeeds :
    (defaultSu.set_pathloss (some 0)).2 = none ∧
    (defaultSu.set_pathloss (some 0)).1.pathloss_value = some 0 := by
  constructor <;> rfl

/-- Helper: a successful construction result, which is always produced by
mapping `fun tdl => ⟨tdl, none⟩` over the inner construction, has its
pathloss disabled. -/
theorem pathloss_none_of_map_ok {x : Except String TdlChannel} {ch : SuSisoChannel}
    (h : Except.map
        (fun tdl => ({ tdlchannel := tdl, pathloss_value := none } : SuSisoChannel)) x =
      Except.ok ch) :
    ch.pathloss_value = none := by
  cases x with
  | ok t =>
    simp [Except.map] at h
    simp [← h]
  | error e => simp [Except.map] at h

/-- C5 amended: the pathloss state established by construction is `None`,
and `set_pathloss` keeps the state either `None` or a scalar in the
closed interval `[0, 1]` — zero included, since `set_pathloss(0)`
succeeds. -/
theorem pathloss_state_none_or_unit_interval :
    (∀ fg cp ps ds Ts ch, SuSisoChannel.init fg cp ps ds Ts = Except.ok ch →
        ch.pathloss_value = none) ∧
    (∀ ch v, PathlossInv ch → PathlossInv (ch.set_pathloss v).1) := by
  constructor
  · intro fg cp ps ds Ts ch h
    unfold SuSisoChannel.init at h
    cases cp <;> cases ps <;> cases ds <;> exact pathloss_none_of_map_ok h
  · intro ch v hch
    cases v with
    | none => left; simp [SuSisoChannel.set_pathloss]
    | some x =>
      by_cases hx : x < 0 ∨ 1 < x
      · simpa [SuSisoChannel.set_pathloss, hx] using hch
      · push_neg at hx
        right
        exact ⟨x, by simp [SuSisoChannel.set_pathloss, hx.1.not_lt, hx.2.not_lt],
          hx.1, hx.2⟩

/-- Witness for the amended C5: starting from the default channel (which
satisfies the invariant), setting pathloss `1/2` keeps the invariant. -/
theorem pathloss_state_none_or_unit_interval_witness :
    PathlossInv defaultSu ∧ PathlossInv (defaultSu.set_pathloss (some (1/2))).1 :=
  ⟨Or.inl rfl,
    pathloss_state_none_or_unit_interval.2 defaultSu (some (1/2)) (Or.inl rfl)⟩

/-- C1: with a pathloss `v ∈ [0, 1]` set, both corruption methods return
elementwise `sqrt v` times the output the same call produces with
pathloss disabled (the inner channel output, hence the fading draw, held
fixed); with pathloss `None` the facade returns the inner output
unchanged. -/
theorem corrupt_data_pathloss_scaling (inner : List ℂ → List ℂ)
    (innerF : List ℂ → ℕ → Option (List ℕ) → List ℂ)
    (ch : SuSisoChannel) (signal : List ℂ) (fft_size : ℕ)
    (carrier_indexes : Option (List ℕ)) (v : ℚ) :
    (ch.pathloss_value = some v → 0 ≤ v → v ≤ 1 →
      SuSisoChannel.corrupt_data inner ch signal =
        (SuSisoChannel.corrupt_data inner { ch with pathloss_value := none }
            signal).map (fun z => z * ((Real.sqrt (v : ℝ) : ℝ) : ℂ)) ∧
      SuSisoChannel.corrupt_data_in_freq_domain innerF ch signal fft_size
          carrier_indexes =
        (SuSisoChannel.corrupt_data_in_freq_domain innerF
            { ch with pathloss_value := none } signal fft_size
            carrier_indexes).map (fun z => z * ((Real.sqrt (v : ℝ) : ℝ) : ℂ))) ∧
    (ch.pathloss_value = none →
      SuSisoChannel.corrupt_data inner ch signal = inner signal ∧
      SuSisoChannel.corrupt_data_in_freq_domain innerF ch signal fft_size
          carrier_indexes = innerF signal fft_size carrier_indexes) := by
  constructor
  · intro h _ _
    constructor <;>
      simp [SuSisoChannel.corrupt_data, SuSisoChannel.corrupt_data_in_freq_domain, h]
  · intro h
    constructor <;>
      simp [SuSisoChannel.corrupt_data, SuSisoChannel.corrupt_data_in_freq_domain, h]

/-- Channel with pathloss `1/4`, used to witness C1. -/
def quarterSu : SuSisoChannel :=
  ⟨⟨FadingSampleGenerator.rayleigh, [0], [0], some 1⟩, some (1/4)⟩

/-- Witness for C1 at pathloss `1/4`, identity inner channel and the
one-sample signal `[1]`. -/
theorem corrupt_data_pathloss_scaling_witness :
    (0 : ℚ) ≤ 1/4 ∧ (1 : ℚ)/4 ≤ 1 ∧
    SuSisoChannel.corrupt_data (fun s => s) quarterSu [1] =
      (SuSisoChannel.corrupt_data (fun s => s)
          { quarterSu with pathloss_value := none } [1]).map
        (fun z => z * ((Real.sqrt (((1:ℚ)/4 : ℚ) : ℝ) : ℝ) : ℂ)) :=
  ⟨by norm_num, by norm_num,
    ((corrupt_data_pathloss_scaling (fun s => s) (fun s _ _ => s) quarterSu [1] 4
        none (1/4)).1 rfl (by norm_num) (by norm_num)).1⟩

/-- C4: after a corruption call (the inner channel's last impulse
response exists), `get_last_impulse_response` returns that response
scaled by `sqrt(pathloss_value)` when a pathloss is set, and unscaled
when pathloss is `None`. -/
theorem get_last_impulse_response_scaling
    (innerLast : Option TdlImpulseResponse) (ch : SuSisoChannel)
    (r : TdlImpulseResponse) (v : ℚ) (h : innerLast = some r) :
    (ch.pathloss_value = some v →
      SuSisoChannel.get_last_impulse_response innerLast ch =
        some (TdlImpulseResponse.smul (Real.sqrt (v : ℝ)) r)) ∧
    (ch.pathloss_value = none →
      SuSisoChannel.get_last_impulse_response innerLast ch = some r) := by
  subst h
  constructor <;> intro hp <;>
    simp [SuSisoChannel.get_last_impulse_response, hp]

/-- Impulse response with the single tap gain 1, used to witness C4. -/
def unitIr : TdlImpulseResponse := ⟨[1]⟩

/-- Witness for C4: with pathloss `1/4` set on the default channel, the
facade returns the inner last response scaled by `sqrt(1/4)`. -/
theorem get_last_impulse_response_scaling_witness :
    SuSisoChannel.get_last_impulse_response (some unitIr) quarterSu =
      some (TdlImpulseResponse.smul (Real.sqrt (((1:ℚ)/4 : ℚ) : ℝ)) unitIr) :=
  (get_last_impulse_response_scaling (some unitIr) quarterSu unitIr (1/4) rfl).1 rfl

/-- C10: `set_pathloss()` with no argument is `set_pathloss(None)`: it
never raises, disables pathloss, and afterwards both corruption methods
and `get_last_impulse_response` apply no scaling at all. -/
theorem set_pathloss_noarg_disables (ch : SuSisoChannel)
    (inner : List ℂ → List ℂ) (innerF : List ℂ → ℕ → Option (List ℕ) → List ℂ)
    (innerLast : Option TdlImpulseResponse) (signal : List ℂ) (fft_size : ℕ)
    (carrier_indexes : Option (List ℕ)) :
    ch.set_pathloss_noarg = ch.set_pathloss none ∧
    (ch.set_pathloss_noarg).2 = none ∧
    (ch.set_pathloss_noarg).1.pathloss_value = none ∧
    SuSisoChannel.corrupt_data inner (ch.set_pathloss_noarg).1 signal =
      inner signal ∧
    SuSisoChannel.corrupt_data_in_freq_domain innerF (ch.set_pathloss_noarg).1
      signal fft_size carrier_indexes = innerF signal fft_size carrier_indexes ∧
    SuSisoChannel.get_last_impulse_response innerLast
      (ch.set_pathloss_noarg).1 = innerLast := by
  refine ⟨rfl, rfl, rfl, ?_, ?_, ?_⟩ <;>
    simp [SuSisoChannel.set_pathloss_noarg, SuSisoChannel.set_pathloss,
      SuSisoChannel.corrupt_data, SuSisoChannel.corrupt_data_in_freq_domain,
      SuSisoChannel.get_last_impulse_response]

/-! Embedding of `randn_c` (util/misc.py) and the distributional claim
about it.  The two `np.random.randn` calls are external randomness; their
draws enter the embedding as explicit inputs, and the statistical
conclusions are drawn for any random draws with the standard-normal
moments (zero mean, unit variance, mutual independence). -/

open MeasureTheory ProbabilityTheory

/-- Embedding of one element of `randn_c` (util/misc.py lines 178-204):
with `x` and `y` the two `np.random.randn` draws for this position, the
element is `(1.0 / math.sqrt(2.0)) * (x + 1j*y)`. -/
noncomputable def randn_c_sample (x y : ℝ) : ℂ :=
  ((1 / Real.sqrt 2 : ℝ) : ℂ) * ((x : ℂ) + Complex.I * (y : ℂ))

/-- Embedding of `randn_c` itself: the two `np.random.randn` calls
produce draw arrays `xs` and `ys` of the requested shape (flattened to
lists here), combined elementwise. -/
noncomputable def randn_c (xs ys : List ℝ) : List ℂ :=
  List.zipWith randn_c_sample xs ys

/-- Real part of a `randn_c` element is the first draw over `sqrt 2`. -/
theorem randn_c_sample_re (x y : ℝ) :
    (randn_c_sample x y).re = x / Real.sqrt 2 := by
  simp only [randn_c_sample, Complex.mul_re, Complex.add_re, Complex.add_im,
    Complex.mul_im, Complex.I_re, Complex.I_im, Complex.ofReal_re,
    Complex.ofReal_im]
  ring

/-- Imaginary part of a `randn_c` element is the second draw over
`sqrt 2`. -/
theorem randn_c_sample_im (x y : ℝ) :
    (randn_c_sample x y).im = y / Real.sqrt 2 := by
  simp only [randn_c_sample, Complex.mul_re, Complex.add_re, Complex.add_im,
    Complex.mul_im, Complex.I_re, Complex.I_im, Complex.ofReal_re,
    Complex.ofReal_im]
  ring

/-- Squared magnitude of a `randn_c` element in terms of the draws. -/
theorem randn_c_sample_normSq (x y : ℝ) :
    Complex.normSq (randn_c_sample x y) = (x ^ 2 + y ^ 2) / 2 := by
  rw [Complex.normSq_apply, randn_c_sample_re, randn_c_sample_im,
    div_mul_div_comm, div_mul_div_comm,
    Real.mul_self_sqrt (by norm_num : (0 : ℝ) ≤ 2), div_add_div_same]
  ring

/-- Elementwise description of `randn_c`: position `i` of the output
combines position `i` of the two draw arrays. -/
theorem randn_c_get? (xs ys : List ℝ) (i : ℕ) (x y : ℝ)
    (hx : xs.get? i = some x) (hy : ys.get? i = some y) :
    (randn_c xs ys).get? i = some (randn_c_sample x y) := by
  induction xs generalizing ys i with
  | nil => simp at hx
  | cons a xs ih =>
    cases ys with
    | nil => simp at hy
    | cons b ys =>
      cases i with
      | zero =>
        simp only [List.get?] at hx hy
        simp [randn_c, List.zipWith]
        simp_all
      | succ n =>
        simp only [List.get?] at hx hy
        simpa [randn_c, List.zipWith] using ih ys n hx hy

/-- C8: every element of `randn_c` equals `(x + i*y)/sqrt 2` for the two
draws `x`, `y` at its position, and for draws that are independent with
zero mean and unit variance the real and imaginary parts of a sample are
independent, have zero mean and variance `1/2` each, and the expected
squared magnitude is 1. -/
theorem randn_c_unit_power_circular
    {Ω : Type} [MeasurableSpace Ω] (μ : Measure Ω) [IsProbabilityMeasure μ]
    (X Y : Ω → ℝ) (hIndep : IndepFun X Y μ)
    (hX2 : Memℒp X 2 μ) (hY2 : Memℒp Y 2 μ)
    (hX0 : ∫ ω, X ω ∂μ = 0) (hY0 : ∫ ω, Y ω ∂μ = 0)
    (hXv : variance X μ = 1) (hYv : variance Y μ = 1) :
    (∀ (xs ys : List ℝ) (i : ℕ) (x y : ℝ), xs.get? i = some x →
        ys.get? i = some y →
        (randn_c xs ys).get? i = some (randn_c_sample x y)) ∧
    (∀ ω, (randn_c_sample (X ω) (Y ω)).re = X ω / Real.sqrt 2 ∧
        (randn_c_sample (X ω) (Y ω)).im = Y ω / Real.sqrt 2) ∧
    IndepFun (fun ω => (randn_c_sample (X ω) (Y ω)).re)
      (fun ω => (randn_c_sample (X ω) (Y ω)).im) μ ∧
    ∫ ω, (randn_c_sample (X ω) (Y ω)).re ∂μ = 0 ∧
    ∫ ω, (randn_c_sample (X ω) (Y ω)).im ∂μ = 0 ∧
    variance (fun ω => (randn_c_sample (X ω) (Y ω)).re) μ = 1/2 ∧
    variance (fun ω => (randn_c_sample (X ω) (Y ω)).im) μ = 1/2 ∧
    ∫ ω, Complex.normSq (randn_c_sample (X ω) (Y ω)) ∂μ = 1 := by
  have hsq2 : Real.sqrt 2 ^ 2 = 2 := Real.sq_sqrt (by norm_num)
  have hre : (fun ω => (randn_c_sample (X ω) (Y ω)).re) =
      (fun a : ℝ => a / Real.sqrt 2) ∘ X :=
    funext fun ω => randn_c_sample_re _ _
  have him : (fun ω => (randn_c_sample (X ω) (Y ω)).im) =
      (fun a : ℝ => a / Real.sqrt 2) ∘ Y :=
    funext fun ω => randn_c_sample_im _ _
  have hXsq : ∫ ω, X ω ^ 2 ∂μ = 1 := by
    have hv := variance_def' hX2
    rw [hXv] at hv
    simp only [Pi.pow_apply] at hv
    rw [hX0] at hv
    simp at hv
    linarith
  have hYsq : ∫ ω, Y ω ^ 2 ∂μ = 1 := by
    have hv := variance_def' hY2
    rw [hYv] at hv
    simp only [Pi.pow_apply] at hv
    rw [hY0] at hv
    simp at hv
    linarith
  refine ⟨randn_c_get?, fun ω => ⟨randn_c_sample_re _ _, randn_c_sample_im _ _⟩,
    ?_, ?_, ?_, ?_, ?_, ?_⟩
  · rw [hre, him]
    exact hIndep.comp (measurable_id.div_const _) (measurable_id.div_const _)
  · simp only [randn_c_sample_re]
    rw [integral_div, hX0, zero_div]
  · simp only [randn_c_sample_im]
    rw [integral_div, hY0, zero_div]
  · have hsmul : (fun ω => (randn_c_sample (X ω) (Y ω)).re) =
        (Real.sqrt 2)⁻¹ • X := by
      funext ω
      simp [randn_c_sample_re, div_eq_inv_mul]
    rw [hsmul, variance_smul, hXv, mul_one, inv_pow, hsq2]
    norm_num
  · have hsmul : (fun ω => (randn_c_sample (X ω) (Y ω)).im) =
        (Real.sqrt 2)⁻¹ • Y := by
      funext ω
      simp [randn_c_sample_im, div_eq_inv_mul]
    rw [hsmul, variance_smul, hYv, mul_one, inv_pow, hsq2]
    norm_num
  · simp only [randn_c_sample_normSq]
    rw [integral_div, integral_add hX2.integrable_sq hY2.integrable_sq,
      hXsq, hYsq]
    norm_num

/-! Concrete probability space witnessing the hypotheses of the `randn_c`
theorem: two independent Rademacher draws (values `±1` with probability
`1/2` each) have zero mean, unit variance and are independent. -/

/-- Rademacher value map on a fair coin. -/
def rad (b : Bool) : ℝ := if b then 1 else -1

/-- Fair-coin measure on `Bool`. -/
noncomputable def halfMeasure : Measure Bool :=
  (2 : ENNReal)⁻¹ • Measure.dirac true + (2 : ENNReal)⁻¹ • Measure.dirac false

instance : IsProbabilityMeasure halfMeasure := by
  constructor
  simp [halfMeasure]
  exact ENNReal.inv_two_add_inv_two

/-- Product of two independent fair coins. -/
noncomputable def coinPair : Measure (Bool × Bool) :=
  halfMeasure.prod halfMeasure

instance : IsProbabilityMeasure coinPair := by
  unfold coinPair
  infer_instance

/-- First Rademacher draw. -/
def XW (ω : Bool × Bool) : ℝ := rad ω.1

/-- Second Rademacher draw. -/
def YW (ω : Bool × Bool) : ℝ := rad ω.2

theorem halfMeasure_singleton (b : Bool) : halfMeasure {b} = 2⁻¹ := by
  cases b <;>
    simp [halfMeasure, Measure.dirac_apply]

theorem coinPair_singleton (ω : Bool × Bool) : coinPair {ω} = 4⁻¹ := by
  obtain ⟨a, b⟩ := ω
  rw [coinPair, ← Set.singleton_prod_singleton, Measure.prod_prod,
    halfMeasure_singleton, halfMeasure_singleton, ← ENNReal.mul_inv] <;>
    norm_num

/-- Integrals over the coin pair are finite averages over the four
outcomes. -/
theorem integral_coinPair (f : Bool × Bool → ℝ) :
    ∫ ω, f ω ∂coinPair =
      (f (true, true) + f (true, false) + f (false, true) + f (false, false)) / 4 := by
  rw [integral_fintype _ Integrable.of_finite]
  simp [Fintype.sum_prod_type, coinPair_singleton, ENNReal.toReal_inv]
  ring

theorem XW_mean : ∫ ω, XW ω ∂coinPair = 0 := by
  rw [integral_coinPair]
  norm_num [XW, rad]

theorem YW_mean : ∫ ω, YW ω ∂coinPair = 0 := by
  rw [integral_coinPair]
  norm_num [YW, rad]

theorem XW_memLp : Memℒp XW 2 coinPair := by
  refine Memℒp.of_bound Measurable.of_discrete.aestronglyMeasurable 1 ?_
  filter_upwards with ω
  rcases ω with ⟨a, b⟩
  cases a <;> simp [XW, rad]

theorem YW_memLp : Memℒp YW 2 coinPair := by
  refine Memℒp.of_bound Measurable.of_discrete.aestronglyMeasurable 1 ?_
  filter_upwards with ω
  rcases ω with ⟨a, b⟩
  cases b <;> simp [YW, rad]

theorem XW_variance : variance XW coinPair = 1 := by
  rw [variance_def' XW_memLp]
  have h1 : ∫ ω, (XW ^ 2) ω ∂coinPair = 1 := by
    simp only [Pi.pow_apply]
    rw [integral_coinPair]
    norm_num [XW, rad]
  rw [h1]
  simp [XW_mean]

theorem YW_variance : variance YW coinPair = 1 := by
  rw [variance_def' YW_memLp]
  have h1 : ∫ ω, (YW ^ 2) ω ∂coinPair = 1 := by
    simp only [Pi.pow_apply]
    rw [integral_coinPair]
    norm_num [YW, rad]
  rw [h1]
  simp [YW_mean]

/-- Coordinates of a product of probability measures are independent. -/
theorem indepFun_coords {A B : Type} [MeasurableSpace A] [MeasurableSpace B]
    (μ : Measure A) (ν : Measure B) [IsProbabilityMeasure μ]
    [IsProbabilityMeasure ν] :
    IndepFun Prod.fst Prod.snd (μ.prod ν) := by
  rw [indepFun_iff_map_prod_eq_prod_map_map measurable_fst.aemeasurable
    measurable_snd.aemeasurable]
  have h1 : (fun ω : A × B => (Prod.fst ω, Prod.snd ω)) = id := rfl
  rw [h1, Measure.map_id, Measure.map_fst_prod, Measure.map_snd_prod]
  simp

theorem XW_YW_indep : IndepFun XW YW coinPair := by
  have h : IndepFun (rad ∘ Prod.fst) (rad ∘ Prod.snd) (halfMeasure.prod halfMeasure) :=
    (indepFun_coords halfMeasure halfMeasure).comp Measurable.of_discrete
      Measurable.of_discrete
  exact h

/-- Witness for C8 at the concrete two-coin Rademacher space: the
variance of the real part is `1/2` and the expected squared magnitude
is 1. -/
theorem randn_c_unit_power_circular_witness :
    variance (fun ω => (randn_c_sample (XW ω) (YW ω)).re) coinPair = 1/2 ∧
    ∫ ω, Complex.normSq (randn_c_sample (XW ω) (YW ω)) ∂coinPair = 1 := by
  have h := randn_c_unit_power_circular coinPair XW YW XW_YW_indep XW_memLp
    YW_memLp XW_mean YW_mean XW_variance YW_variance
  exact ⟨h.2.2.2.2.2.1, h.2.2.2.2.2.2.2⟩

end PyPhysim
